import Mathlib

/-!
Verification of the Screeps World MCP API access layer
(`src/utils/api.ts`, `src/config/index.ts`, `src/utils/errors.ts`).

The TypeScript `ApiClient` class is shallowly embedded: its mutable fields
(`responseCache`, `lastRateLimitInfo`, `recentCalls`) become an explicit
`ClientState`, JS `Map`s become insertion-ordered association lists,
`Date.now()` becomes an explicit `now : Int` argument, `fetch` becomes a
transport function supplied by the caller, and JS `throw` becomes
`Except String` (the source only ever throws plain `Error(message)`
values, so a thrown error is exactly its message string).
-/

set_option linter.unusedVariables false

namespace ScreepsApi

/-! ## JS number / string primitives -/

/-- A JS number produced by `parseInt`: either NaN or an integer. -/
inductive JsNum where
  | nan : JsNum
  | val : Int → JsNum
deriving DecidableEq, Repr

/-- JS whitespace accepted (and stripped) by `parseInt`. -/
def isJsSpace (c : Char) : Bool :=
  c = ' ' || c = '\t' || c = '\n' || c = '\r' || c = '\x0b' || c = '\x0c'

/-- Decimal digit value. -/
def decDigit (c : Char) : Option Nat :=
  if '0' ≤ c ∧ c ≤ '9' then some (c.toNat - '0'.toNat) else none

/-- Hexadecimal digit value. -/
def hexDigit (c : Char) : Option Nat :=
  if '0' ≤ c ∧ c ≤ '9' then some (c.toNat - '0'.toNat)
  else if 'a' ≤ c ∧ c ≤ 'f' then some (c.toNat - 'a'.toNat + 10)
  else if 'A' ≤ c ∧ c ≤ 'F' then some (c.toNat - 'A'.toNat + 10)
  else none

/-- Parse the longest prefix of digits in the given base; `none` if there are
no digits at all (which `parseInt` reports as NaN). -/
def parseDigits (digit : Char → Option Nat) (base : Nat) (l : List Char) :
    Option Nat :=
  let ds := l.takeWhile (fun c => (digit c).isSome)
  if ds.isEmpty then none
  else some (ds.foldl (fun acc c => acc * base + (digit c).getD 0) 0)

/-- JS `parseInt(s)` (no explicit radix): strip leading whitespace, read an
optional sign, use base 16 on a `0x`/`0X` prefix and base 10 otherwise,
and parse the longest digit prefix; no digits means NaN. -/
def parseIntJS (s : String) : JsNum :=
  let l := s.data.dropWhile isJsSpace
  let (sign, l') : Int × List Char :=
    match l with
    | '-' :: r => (-1, r)
    | '+' :: r => (1, r)
    | _ => (1, l)
  match l' with
  | '0' :: 'x' :: r =>
    match parseDigits hexDigit 16 r with
    | some n => JsNum.val (sign * (n : Int))
    | none => JsNum.nan
  | '0' :: 'X' :: r =>
    match parseDigits hexDigit 16 r with
    | some n => JsNum.val (sign * (n : Int))
    | none => JsNum.nan
  | _ =>
    match parseDigits decDigit 10 l' with
    | some n => JsNum.val (sign * (n : Int))
    | none => JsNum.nan

/-- Does a list start with the given pattern (`List.isPrefixOf`, spelled out). -/
def charsStartWith : List Char → List Char → Bool
  | [], _ => true
  | _ :: _, [] => false
  | p :: ps, c :: cs => p = c && charsStartWith ps cs

/-- Does a character list contain the pattern as a contiguous run. -/
def charsInclude (pat : List Char) : List Char → Bool
  | [] => charsStartWith pat []
  | c :: cs => charsStartWith pat (c :: cs) || charsInclude pat cs

/-- JS `s.includes(pat)`. -/
def strIncludes (s pat : String) : Bool :=
  charsInclude pat.data s.data

/-- JSON string escape for one character (as used by `JSON.stringify`). -/
def jsonEscapeChar (c : Char) : String :=
  if c = '"' then "\\\""
  else if c = '\\' then "\\\\"
  else if c = '\n' then "\\n"
  else if c = '\r' then "\\r"
  else if c = '\t' then "\\t"
  else if c.toNat < 32 then
    let hexChars := "0123456789abcdef".data
    let n := c.toNat
    String.mk ['\\', 'u', '0', '0',
      hexChars.getD (n / 16) '0', hexChars.getD (n % 16) '0']
  else String.mk [c]

/-- `JSON.stringify` applied to a JS string value. -/
def jsonStringifyString (s : String) : String :=
  "\"" ++ String.join (s.data.map jsonEscapeChar) ++ "\""

/-! ## Insertion-ordered map (JS `Map` / object) on association lists -/

/-- JS `Map.prototype.get` / object property read: first binding wins
(keys are kept unique by `mapSet`). -/
def mapGet {β : Type} (m : List (String × β)) (k : String) : Option β :=
  (m.find? (fun p => p.1 = k)).map Prod.snd

/-- JS `Map.prototype.set` / object property write: update the existing
binding in place, or append a new one. -/
def mapSet {β : Type} (m : List (String × β)) (k : String) (v : β) :
    List (String × β) :=
  if m.any (fun p => p.1 = k) then
    m.map (fun p => if p.1 = k then (k, v) else p)
  else
    m ++ [(k, v)]

/-- JS `Map.prototype.delete`. -/
def mapDelete {β : Type} (m : List (String × β)) (k : String) :
    List (String × β) :=
  m.filter (fun p => p.1 ≠ k)

/-! ## Data model (`src/types/index.ts`, `src/utils/api.ts`) -/

/-- `RetryConfig` from `src/types/index.ts`. -/
structure RetryConfig where
  maxRetries : Nat
  initialDelayMs : Nat
  maxDelayMs : Nat
  retryableStatusCodes : List Nat
deriving DecidableEq, Repr

/-- `DEFAULT_RETRY_CONFIG` from `src/config/index.ts`. -/
def DEFAULT_RETRY_CONFIG : RetryConfig :=
  { maxRetries := 3
    initialDelayMs := 1000
    maxDelayMs := 10000
    retryableStatusCodes := [408, 429, 500, 502, 503, 504] }

/-- The rate-limit snapshot (`ApiResponseMetadata['rateLimitInfo']`):
`{ remaining, resetTime, limit }`, numbers coming from `parseInt`. -/
structure RateLimitInfo where
  remaining : JsNum
  resetTime : JsNum
  limit : JsNum
deriving DecidableEq, Repr

/-- One entry of `recentCalls`: `{ endpoint, cacheKey, timestamp }`. -/
structure CallRecord where
  endpoint : String
  cacheKey : String
  timestamp : Int
deriving DecidableEq, Repr

/-- One entry of `responseCache`: `{ data, timestamp, ttl }`. -/
structure CacheEntry (α : Type) where
  data : α
  timestamp : Int
  ttl : Int
deriving DecidableEq, Repr

/-- The mutable fields of `ApiClient`. -/
structure ClientState (α : Type) where
  responseCache : List (String × CacheEntry α)
  lastRateLimitInfo : Option RateLimitInfo
  recentCalls : List CallRecord
deriving DecidableEq, Repr

/-- The parts of a `RequestInit` that `ApiClient` looks at: `method`
(absent ⇒ GET via `||`), `body` and `headers`. -/
structure RequestOptions where
  method : Option String
  body : Option String
  headers : List (String × String)
deriving DecidableEq, Repr

/-- `RequestInit` with no fields set, the default of `makeApiCall`. -/
def emptyOptions : RequestOptions :=
  { method := none, body := none, headers := [] }

/-- An HTTP response as the client consumes it: status, statusText, headers
and the JSON body (`response.json()` resolves to `jsonBody`). -/
structure Response (α : Type) where
  status : Nat
  statusText : String
  headers : List (String × String)
  jsonBody : α
deriving DecidableEq, Repr

/-- `response.headers.get(name)` (exact-name lookup, as in the test mocks). -/
def getHeader {α : Type} (r : Response α) (name : String) : Option String :=
  mapGet r.headers name

/-- `response.ok`: status in the 2xx range. -/
def responseOk {α : Type} (r : Response α) : Bool :=
  200 ≤ r.status && r.status < 300

/-- The request handed to `fetch`: url, method, merged headers, body. -/
structure FetchRequest where
  url : String
  method : Option String
  headers : List (String × String)
  body : Option String
deriving DecidableEq, Repr

/-- Configuration the client reads from `ConfigManager`. -/
structure ClientConfig where
  baseUrl : String
  authHeaders : List (String × String)
  retryConfig : RetryConfig
deriving DecidableEq, Repr

/-- The value `makeApiCall` resolves with: the payload, plus the
`_cacheHit` marker (and `_cachedAt` stamp) added on a cache hit. -/
structure ApiCallResult (α : Type) where
  data : α
  cacheHit : Bool
  cachedAt : Option Int
deriving DecidableEq, Repr

/-! ## Retry engine (`fetchWithRetry`, `api.ts` lines 25-77)

The `for (let attempt = 0; attempt <= maxRetries; attempt++)` loop is
embedded with the current `attempt` index and the number of attempts still
allowed after it (`fuel = maxRetries - attempt`).  The trace records how
many attempts were made and every backoff delay that was slept. -/

/-- The delay computed before the next attempt:
`Math.min(initialDelayMs * 2 ** attempt, maxDelayMs)`. -/
def backoffDelay (cfg : RetryConfig) (attempt : Nat) : Nat :=
  min (cfg.initialDelayMs * 2 ^ attempt) cfg.maxDelayMs

/-- Outcome of one `fetch`: a response, or a thrown network-level error. -/
abbrev FetchOutcome (α : Type) := Except String (Response α)

/-- Result of `fetchWithRetry`: number of `fetch` attempts performed, the
backoff delays slept between them, and the returned response or the
re-thrown final network error. -/
structure RetryTrace (α : Type) where
  attempts : Nat
  delays : List Nat
  result : Except String (Response α)
deriving Repr

/-- The retry loop body, from attempt index `attempt` with `fuel` further
attempts allowed (`fuel = 0` on the final attempt). -/
def fetchWithRetryAux {α : Type} (cfg : RetryConfig)
    (f : Nat → FetchOutcome α) : Nat → Nat → RetryTrace α
  | attempt, 0 =>
    -- last attempt: an ok/non-retryable response returns, a retryable
    -- response is returned anyway, a network error is re-thrown
    match f attempt with
    | Except.ok r => { attempts := 1, delays := [], result := Except.ok r }
    | Except.error e => { attempts := 1, delays := [], result := Except.error e }
  | attempt, fuel + 1 =>
    match f attempt with
    | Except.ok r =>
      if responseOk r || !(cfg.retryableStatusCodes.contains r.status) then
        { attempts := 1, delays := [], result := Except.ok r }
      else
        let t := fetchWithRetryAux cfg f (attempt + 1) fuel
        { attempts := t.attempts + 1
          delays := backoffDelay cfg attempt :: t.delays
          result := t.result }
    | Except.error e =>
      let t := fetchWithRetryAux cfg f (attempt + 1) fuel
      { attempts := t.attempts + 1
        delays := backoffDelay cfg attempt :: t.delays
        result := t.result }

/-- `fetchWithRetry`: run the loop from attempt 0, `maxRetries + 1` attempts
allowed in total. -/
def fetchWithRetry {α : Type} (cfg : RetryConfig)
    (f : Nat → FetchOutcome α) : RetryTrace α :=
  fetchWithRetryAux cfg f 0 cfg.maxRetries

/-- Is this fetch outcome retried by the loop (when attempts remain)?
A network-level error always is; a response is iff it is not `ok` and its
status is in `retryableStatusCodes`. -/
def retryOutcome {α : Type} (cfg : RetryConfig) (o : FetchOutcome α) : Bool :=
  match o with
  | Except.error _ => true
  | Except.ok r => !responseOk r && cfg.retryableStatusCodes.contains r.status

/-! ## Cache, call history, loop detection (`api.ts` lines 144-287) -/

/-- `generateCacheKey` (lines 200-204): `options.method || 'GET'` (so an
absent or empty method reads GET), the body serialized through
`JSON.stringify` when truthy, joined with colons. -/
def generateCacheKey (endpoint : String) (options : RequestOptions) : String :=
  let method :=
    match options.method with
    | some m => if m = "" then "GET" else m
    | none => "GET"
  let body :=
    match options.body with
    | some b => if b = "" then "" else jsonStringifyString b
    | none => ""
  method ++ ":" ++ endpoint ++ ":" ++ body

/-- `getCachedResult` (lines 206-218): serve the entry when
`now < timestamp + ttl`; otherwise delete a present (expired) entry lazily
and report a miss.  Returns the served data and the updated cache state. -/
def getCachedResult {α : Type} (now : Int) (cacheKey : String)
    (st : ClientState α) : Option α × ClientState α :=
  match mapGet st.responseCache cacheKey with
  | some cached =>
    if now < cached.timestamp + cached.ttl then
      (some cached.data, st)
    else
      (none, { st with responseCache := mapDelete st.responseCache cacheKey })
  | none => (none, st)

/-- `setCachedResult` (lines 220-226). -/
def setCachedResult {α : Type} (now : Int) (cacheKey : String) (data : α)
    (ttl : Int) (st : ClientState α) : ClientState α :=
  { st with
    responseCache :=
      mapSet st.responseCache cacheKey { data := data, timestamp := now, ttl := ttl } }

/-- `maxRecentCalls = 20`. -/
def maxRecentCalls : Nat := 20

/-- `trackCall` (lines 144-155) on the history list: push the record, then
`shift()` the oldest when the capacity is exceeded. -/
def trackCallList (now : Int) (endpoint cacheKey : String)
    (l : List CallRecord) : List CallRecord :=
  let pushed := l ++ [{ endpoint := endpoint, cacheKey := cacheKey, timestamp := now }]
  if maxRecentCalls < pushed.length then pushed.drop 1 else pushed

/-- `trackCall` on the client state. -/
def trackCall {α : Type} (now : Int) (endpoint cacheKey : String)
    (st : ClientState α) : ClientState α :=
  { st with recentCalls := trackCallList now endpoint cacheKey st.recentCalls }

/-- Occurrence counting as done with a JS `Map` and `forEach`
(`recentIdenticalCalls` / `endpointCounts`). -/
def buildCountMap (key : CallRecord → String) (l : List CallRecord) :
    List (String × Nat) :=
  l.foldl (fun m c => mapSet m (key c) ((mapGet m (key c)).getD 0 + 1)) []

/-- Result of `detectLoops`. -/
structure LoopDetection where
  isLoop : Bool
  warnings : List String
deriving DecidableEq, Repr

/-- The four warnings pushed for one identical-call count of at least 2. -/
def loopWarnings (count : Nat) : List String :=
  ["CRITICAL LOOP DETECTED: Identical call made " ++ toString count ++
     " times in the last 5 minutes",
   "STOP IMMEDIATELY: You already have all the data from this endpoint",
   "MANDATORY: Analyze the existing data - DO NOT make more calls",
   "SYSTEM: Further identical calls will be blocked"]

/-- The two warnings pushed for one overused endpoint. -/
def overuseWarnings (endpoint : String) (count : Nat) : List String :=
  ["OVERUSE WARNING: " ++ endpoint ++ " called " ++ toString count ++ " times recently",
   "SUGGESTION: Consider using different endpoints or analyzing existing data"]

/-- `detectLoops` (lines 157-198): count identical cache keys over the
records of the last five minutes (strictly later than `now - 5 * 60 * 1000`);
any count of at least 2 declares a loop.  Endpoint counts over the whole
retained history of at least 5 only add advisory warnings. -/
def detectLoops (now : Int) (recentCalls : List CallRecord) : LoopDetection :=
  let fiveMinutesAgo := now - 5 * 60 * 1000
  let recentIdenticalCalls :=
    buildCountMap (fun c => c.cacheKey)
      (recentCalls.filter (fun c => fiveMinutesAgo < c.timestamp))
  let loopAcc :=
    recentIdenticalCalls.foldl
      (fun (acc : Bool × List String) p =>
        if 2 ≤ p.2 then (true, acc.2 ++ loopWarnings p.2) else acc)
      (false, [])
  let endpointCounts := buildCountMap (fun c => c.endpoint) recentCalls
  let warnings :=
    endpointCounts.foldl
      (fun ws p => if 5 ≤ p.2 then ws ++ overuseWarnings p.1 p.2 else ws)
      loopAcc.2
  { isLoop := loopAcc.1, warnings := warnings }

/-- `getCacheTTL` (lines 228-272): first substring match wins; milliseconds. -/
def getCacheTTL (endpoint : String) : Int :=
  if strIncludes endpoint "/auth/me" then 15 * 60 * 1000
  else if strIncludes endpoint "/version" then 60 * 60 * 1000
  else if strIncludes endpoint "/game/world-size" then 60 * 60 * 1000
  else if strIncludes endpoint "/game/shards/info" then 10 * 60 * 1000
  else if strIncludes endpoint "/user/world-status" then 2 * 60 * 1000
  else if strIncludes endpoint "/game/time" then 5 * 1000
  else if strIncludes endpoint "/game/market/stats" then 60 * 1000
  else if strIncludes endpoint "room-terrain" then 5 * 60 * 1000
  else if strIncludes endpoint "room-status" then 60 * 1000
  else if strIncludes endpoint "room-objects" then 10 * 1000
  else if strIncludes endpoint "user/stats" || strIncludes endpoint "user/overview" then 30 * 1000
  else if strIncludes endpoint "market" then 15 * 1000
  else 30 * 1000

/-- `extractRateLimitInfo` (lines 274-287): read the three headers; when
all are present and truthy (non-empty), parse each with `parseInt` and
build the snapshot, else report none. -/
def extractRateLimitInfo {α : Type} (r : Response α) : Option RateLimitInfo :=
  let limit := getHeader r "X-RateLimit-Limit"
  let remaining := getHeader r "X-RateLimit-Remaining"
  let reset := getHeader r "X-RateLimit-Reset"
  match limit, remaining, reset with
  | some l, some rem, some rst =>
    if l ≠ "" ∧ rem ≠ "" ∧ rst ≠ "" then
      some { limit := parseIntJS l
             remaining := parseIntJS rem
             resetTime := parseIntJS rst }
    else none
  | _, _, _ => none

/-! ## `makeApiCall` (`api.ts` lines 79-142) -/

/-- The message of the loop error thrown at line 90. -/
def loopErrorMessage (endpoint : String) : String :=
  "LOOP DETECTED: This identical API call has been made multiple times recently. " ++
    "Please analyze the existing data instead of making repeated calls. " ++
    "Endpoint: " ++ endpoint

/-- The message of the 429 error thrown at line 125
(`Retry-After` defaulting to `'unknown'` when absent or empty). -/
def rateLimitErrorMessage (retryAfter : Option String) : String :=
  let ra :=
    match retryAfter with
    | some v => if v = "" then "unknown" else v
    | none => "unknown"
  "Rate limit exceeded. Retry after " ++ ra ++
    " seconds. Consider reducing API call frequency."

/-- The message of the generic HTTP error thrown at line 129 (and built at
line 42 for retryable statuses). -/
def httpErrorMessage {α : Type} (r : Response α) : String :=
  "HTTP " ++ toString r.status ++ ": " ++ r.statusText

/-- Object-spread merge `{...a, ...b}` on string records. -/
def mergeHeaders (a b : List (String × String)) : List (String × String) :=
  b.foldl (fun m p => mapSet m p.1 p.2) a

/-- The request `makeApiCall` hands to `fetchWithRetry`:
`${baseUrl}${endpoint}` and `{...options, headers: {...auth, ...options.headers}}`. -/
def mkFetchRequest (cc : ClientConfig) (endpoint : String)
    (options : RequestOptions) : FetchRequest :=
  { url := cc.baseUrl ++ endpoint
    method := options.method
    headers := mergeHeaders cc.authHeaders options.headers
    body := options.body }

/-- `makeApiCall`: compute the cache key, look up the cache (purging an
expired entry), track the call, fail on a detected loop, serve a fresh
cache hit (clearing the rate-limit snapshot), otherwise fetch through the
retry engine, store the snapshot from the final response, classify non-2xx
statuses as errors, and cache and return the JSON body on success.
The `transport` argument supplies the outcome of each `fetch` attempt for
a given request. -/
def makeApiCall {α : Type} (cc : ClientConfig) (now : Int) (endpoint : String)
    (options : RequestOptions)
    (transport : FetchRequest → Nat → FetchOutcome α)
    (st : ClientState α) :
    Except String (ApiCallResult α) × ClientState α :=
  let cacheKey := generateCacheKey endpoint options
  let lookup := getCachedResult now cacheKey st
  let st2 := trackCall now endpoint cacheKey lookup.2
  let loopDetection := detectLoops now st2.recentCalls
  if loopDetection.isLoop then
    (Except.error (loopErrorMessage endpoint), st2)
  else
    match lookup.1 with
    | some data =>
      let st3 := { st2 with lastRateLimitInfo := none }
      (Except.ok { data := data, cacheHit := true, cachedAt := some now }, st3)
    | none =>
      let trace := fetchWithRetry cc.retryConfig
        (transport (mkFetchRequest cc endpoint options))
      match trace.result with
      | Except.error e =>
        -- a network error on the final attempt is re-thrown; the
        -- rate-limit extraction at line 120 is never reached
        (Except.error e, st2)
      | Except.ok response =>
        let st3 := { st2 with lastRateLimitInfo := extractRateLimitInfo response }
        if !responseOk response then
          if response.status = 429 then
            (Except.error (rateLimitErrorMessage (getHeader response "Retry-After")), st3)
          else
            (Except.error (httpErrorMessage response), st3)
        else
          let data := response.jsonBody
          let st4 := setCachedResult now cacheKey data (getCacheTTL endpoint) st3
          (Except.ok { data := data, cacheHit := false, cachedAt := none }, st4)

/-! ## Query-string construction (`buildQueryParams`,
`buildEndpointWithQuery`, lines 597-613) -/

/-- A JS value passed as a query parameter. -/
inductive JsParam where
  | undef : JsParam
  | null : JsParam
  | str : String → JsParam
  | num : Int → JsParam
  | bool : Bool → JsParam
deriving DecidableEq, Repr

/-- `value !== undefined && value !== null`. -/
def isPresentParam : JsParam → Bool
  | JsParam.undef => false
  | JsParam.null => false
  | _ => true

/-- JS `String(value)`. -/
def jsString : JsParam → String
  | JsParam.undef => "undefined"
  | JsParam.null => "null"
  | JsParam.str s => s
  | JsParam.num n => toString n
  | JsParam.bool true => "true"
  | JsParam.bool false => "false"

/-- `buildQueryParams`: append each non-null, non-undefined entry (in
iteration order) to a fresh `URLSearchParams`. -/
def buildQueryParams (params : List (String × JsParam)) :
    List (String × String) :=
  params.foldl
    (fun urlParams p =>
      if isPresentParam p.2 then urlParams ++ [(p.1, jsString p.2)] else urlParams)
    []

/-- Is this byte kept verbatim by `application/x-www-form-urlencoded`
serialization (ASCII alphanumeric or one of `*-._`). -/
def formUnreserved (b : Nat) : Bool :=
  (48 ≤ b && b ≤ 57) || (65 ≤ b && b ≤ 90) || (97 ≤ b && b ≤ 122) ||
    b = 42 || b = 45 || b = 46 || b = 95

/-- UTF-8 bytes of one character. -/
def utf8Bytes (c : Char) : List Nat :=
  let n := c.toNat
  if n < 0x80 then [n]
  else if n < 0x800 then [0xC0 + n / 64, 0x80 + n % 64]
  else if n < 0x10000 then
    [0xE0 + n / 4096, 0x80 + n / 64 % 64, 0x80 + n % 64]
  else
    [0xF0 + n / 262144, 0x80 + n / 4096 % 64, 0x80 + n / 64 % 64, 0x80 + n % 64]

/-- Percent-encode one byte with uppercase hex digits. -/
def percentByte (b : Nat) : String :=
  let hexChars := "0123456789ABCDEF".data
  String.mk ['%', hexChars.getD (b / 16 % 16) '0', hexChars.getD (b % 16) '0']

/-- `application/x-www-form-urlencoded` escaping of one string, as
`URLSearchParams.toString` performs: space to `+`, unreserved bytes
verbatim, everything else percent-encoded. -/
def formUrlEncode (s : String) : String :=
  String.join (s.data.map (fun c =>
    (utf8Bytes c).foldl
      (fun acc b =>
        if b = 32 then acc ++ "+"
        else if formUnreserved b then acc ++ String.mk [Char.ofNat b]
        else acc ++ percentByte b)
      ""))

/-- The serialization of one `key=value` pair. -/
def encodePair (p : String × String) : String :=
  formUrlEncode p.1 ++ "=" ++ formUrlEncode p.2

/-- `URLSearchParams.toString`: the encoded pairs joined with `&`. -/
def urlParamsToString (l : List (String × String)) : String :=
  match l with
  | [] => ""
  | [p] => encodePair p
  | p :: rest => encodePair p ++ "&" ++ urlParamsToString rest

/-- `buildEndpointWithQuery`: `queryString ? base?query : base`
(the empty query string is falsy). -/
def buildEndpointWithQuery (baseEndpoint : String)
    (params : List (String × JsParam)) : String :=
  let queryString := urlParamsToString (buildQueryParams params)
  if queryString = "" then baseEndpoint
  else baseEndpoint ++ "?" ++ queryString

/-! ## Spec-side definitions (for refinement statements)

These follow the wording of the specification, to be compared with the
definitions embedded from the source. -/

/-- Spec wording for `extractRateLimitInfo`: all three rate-limit headers
are present and non-empty. -/
def specRateHeadersPresent {α : Type} (r : Response α) : Bool :=
  ((getHeader r "X-RateLimit-Limit").getD "" ≠ "") &&
  ((getHeader r "X-RateLimit-Remaining").getD "" ≠ "") &&
  ((getHeader r "X-RateLimit-Reset").getD "" ≠ "")

/-- Spec wording for the snapshot built from the three headers by
`parseInt`. -/
def specParsedRateLimitInfo {α : Type} (r : Response α) : RateLimitInfo :=
  { remaining := parseIntJS ((getHeader r "X-RateLimit-Remaining").getD "")
    resetTime := parseIntJS ((getHeader r "X-RateLimit-Reset").getD "")
    limit := parseIntJS ((getHeader r "X-RateLimit-Limit").getD "") }

/-! ## Concrete sample inputs (used to evaluate the embedding) -/

/-- A client configuration mirroring the test fixtures. -/
def sampleCC : ClientConfig :=
  { baseUrl := "https://screeps.com/api"
    authHeaders := [("Content-Type", "application/json"),
      ("X-Token", "test-token-123"), ("X-Username", "test-user")]
    retryConfig := DEFAULT_RETRY_CONFIG }

/-- A fresh client state. -/
def stEmpty : ClientState Nat :=
  { responseCache := [], lastRateLimitInfo := none, recentCalls := [] }

/-- A previously stored rate-limit snapshot. -/
def rlPrev : RateLimitInfo :=
  { remaining := JsNum.val 5, resetTime := JsNum.val 99, limit := JsNum.val 100 }

/-- A state that still holds a rate-limit snapshot from an earlier response. -/
def stWithRL : ClientState Nat :=
  { responseCache := [], lastRateLimitInfo := some rlPrev, recentCalls := [] }

/-- A state holding a fresh (very long TTL) cache entry for
`GET /user/rooms` with no body. -/
def stWithFreshEntry : ClientState Nat :=
  { responseCache :=
      [("GET:/user/rooms:", { data := 42, timestamp := 0, ttl := 1000000000 })]
    lastRateLimitInfo := none
    recentCalls := [] }

/-- A state holding an expired cache entry for the key `"k"`. -/
def stWithExpiredEntry : ClientState Nat :=
  { responseCache := [("k", { data := 7, timestamp := 0, ttl := 5 })]
    lastRateLimitInfo := none
    recentCalls := [] }

/-- A 200 response with no rate-limit headers. -/
def respNoRL : Response Nat :=
  { status := 200, statusText := "OK", headers := [], jsonBody := 7 }

/-- A 200 response carrying the three rate-limit headers. -/
def respWithRL : Response Nat :=
  { status := 200, statusText := "OK"
    headers := [("X-RateLimit-Limit", "100"), ("X-RateLimit-Remaining", "5"),
      ("X-RateLimit-Reset", "1234")]
    jsonBody := 7 }

/-- A 401 response. -/
def resp401W : Response Nat :=
  { status := 401, statusText := "Unauthorized", headers := [], jsonBody := 0 }

/-- A 404 response. -/
def resp404W : Response Nat :=
  { status := 404, statusText := "Not Found", headers := [], jsonBody := 0 }

/-- A 500 response. -/
def resp500W : Response Nat :=
  { status := 500, statusText := "Server Error", headers := [], jsonBody := 0 }

/-- A 200 response used to probe a policy that lists 200 as retryable. -/
def resp200c : Response Nat :=
  { status := 200, statusText := "OK", headers := [], jsonBody := 0 }

/-- A retry policy whose retryable set contains the success status 200. -/
def cfg200 : RetryConfig :=
  { maxRetries := 3, initialDelayMs := 1000, maxDelayMs := 10000
    retryableStatusCodes := [200] }

/-! ## Helper lemmas: association-list maps -/

theorem mapGet_nil {β : Type} (k : String) : mapGet ([] : List (String × β)) k = none := rfl

theorem mapGet_mapSet_self {β : Type} (m : List (String × β)) (k : String) (v : β) :
    mapGet (mapSet m k v) k = some v := by
  induction m with
  | nil => simp [mapGet, mapSet]
  | cons p rest ih =>
    by_cases hp : p.1 = k
    · simp [mapGet, mapSet, hp]
    · have hany : (p :: rest).any (fun q => q.1 = k) = rest.any (fun q => q.1 = k) := by
        simp [List.any_cons, hp]
      by_cases hr : rest.any (fun q => q.1 = k) = true
      · simp only [mapSet, hany, hr, if_pos]
        simp only [mapSet, hr, if_pos] at ih
        simp [mapGet, List.find?_cons, hp] at ih ⊢
        simpa [hp] using ih
      · simp only [mapSet, hany, hr, Bool.false_eq_true, if_neg, not_false_iff]
        simp only [mapSet, hr, Bool.false_eq_true, if_neg, not_false_iff] at ih
        simp [mapGet, List.find?_cons, hp] at ih ⊢
        simpa [hp] using ih

theorem mapGet_map_replace {β : Type} (k k' : String) (v : β) (h : k' ≠ k) :
    ∀ m : List (String × β),
      mapGet (m.map (fun q => if q.1 = k then (k, v) else q)) k' = mapGet m k'
  | [] => rfl
  | q :: rs => by
    by_cases hq : q.1 = k
    · have hqk' : ¬ q.1 = k' := by rw [hq]; exact fun hh => h hh.symm
      have hkv : ¬ ((k, v).1 = k') := fun hh => h hh.symm
      simp only [List.map_cons, hq, if_pos, mapGet, List.find?_cons_of_neg,
        decide_eq_true_eq, hkv, not_false_iff, hqk']
      exact mapGet_map_replace k k' v h rs
    · by_cases hqk' : q.1 = k'
      · unfold mapGet
        rw [List.map_cons, if_neg hq]
        simp [List.find?_cons, hqk']
      · simp only [List.map_cons, hq, if_neg, not_false_iff, mapGet,
          List.find?_cons_of_neg, decide_eq_true_eq, hqk']
        exact mapGet_map_replace k k' v h rs

theorem mapGet_mapSet_ne {β : Type} (m : List (String × β)) (k k' : String) (v : β)
    (h : k' ≠ k) : mapGet (mapSet m k v) k' = mapGet m k' := by
  unfold mapSet
  by_cases hany : m.any (fun p => p.1 = k) = true
  · simp only [hany, if_pos]
    exact mapGet_map_replace k k' v h m
  · simp only [hany, Bool.false_eq_true, if_neg, not_false_iff]
    unfold mapGet
    rw [List.find?_append]
    have : List.find? (fun p => p.1 = k') [(k, v)] = none := by
      simp [List.find?, Ne.symm h]
    rw [this]
    cases List.find? (fun p => p.1 = k') m <;> rfl

theorem mem_of_mapGet_eq_some {β : Type} (m : List (String × β)) (k : String) (v : β)
    (h : mapGet m k = some v) : (k, v) ∈ m := by
  unfold mapGet at h
  cases hf : m.find? (fun p => p.1 = k) with
  | none => rw [hf] at h; simp at h
  | some p =>
    rw [hf] at h
    simp at h
    have hmem := List.mem_of_find?_eq_some hf
    have hkey := List.find?_some hf
    simp at hkey
    have : p = (k, v) := by
      obtain ⟨p1, p2⟩ := p
      simp at hkey h
      simp [hkey, h]
    rwa [this] at hmem

/-! ## Helper lemmas: occurrence counting and loop detection -/

theorem buildCountMap_foldl_getD (key : CallRecord → String) (k : String) :
    ∀ (l : List CallRecord) (acc : List (String × Nat)),
      (mapGet (l.foldl
          (fun m c => mapSet m (key c) ((mapGet m (key c)).getD 0 + 1)) acc) k).getD 0 =
        l.countP (fun c => key c = k) + (mapGet acc k).getD 0
  | [], acc => by simp [List.countP_nil]
  | c :: rest, acc => by
    rw [List.foldl_cons, buildCountMap_foldl_getD key k rest]
    by_cases hc : key c = k
    · rw [hc, mapGet_mapSet_self]
      simp only [Option.getD_some, List.countP_cons, hc, decide_True, if_true]
      omega
    · rw [mapGet_mapSet_ne _ _ _ _ (fun hh => hc hh.symm), List.countP_cons]
      simp [hc]

theorem buildCountMap_getD (key : CallRecord → String) (l : List CallRecord)
    (k : String) :
    (mapGet (buildCountMap key l) k).getD 0 = l.countP (fun c => key c = k) := by
  unfold buildCountMap
  rw [buildCountMap_foldl_getD]
  rfl

theorem loop_flag_foldl (l : List (String × Nat)) :
    ∀ (init : Bool × List String),
      (l.foldl
        (fun (acc : Bool × List String) p =>
          if 2 ≤ p.2 then (true, acc.2 ++ loopWarnings p.2) else acc) init).1 =
      (init.1 || l.any (fun p => 2 ≤ p.2)) := by
  induction l with
  | nil => intro init; simp
  | cons p rest ih =>
    intro init
    rw [List.foldl_cons, List.any_cons]
    by_cases hp : 2 ≤ p.2
    · rw [if_pos hp, ih]
      simp [hp]
    · rw [if_neg hp, ih]
      simp [hp]

theorem detectLoops_isLoop_of_countP (now : Int) (l : List CallRecord) (k : String)
    (h : 2 ≤ (l.filter (fun c => now - 5 * 60 * 1000 < c.timestamp)).countP
        (fun c => c.cacheKey = k)) :
    (detectLoops now l).isLoop = true := by
  show (List.foldl _ (false, []) _).1 = true
  rw [loop_flag_foldl]
  simp only [Bool.false_or]
  rw [List.any_eq_true]
  have hget := buildCountMap_getD (fun c => c.cacheKey)
    (l.filter (fun c => now - 5 * 60 * 1000 < c.timestamp)) k
  set m := buildCountMap (fun c => c.cacheKey)
    (l.filter (fun c => now - 5 * 60 * 1000 < c.timestamp)) with hm
  cases hfind : mapGet m k with
  | none =>
    rw [hfind, Option.getD_none] at hget
    omega
  | some n =>
    rw [hfind, Option.getD_some] at hget
    refine ⟨(k, n), mem_of_mapGet_eq_some m k n hfind, ?_⟩
    show decide (2 ≤ n) = true
    rw [decide_eq_true_eq]
    omega

theorem detectLoops_two_records (now : Int) (m : List CallRecord)
    (r1 r2 : CallRecord) (hk : r1.cacheKey = r2.cacheKey)
    (h1 : now - 5 * 60 * 1000 < r1.timestamp)
    (h2 : now - 5 * 60 * 1000 < r2.timestamp) :
    (detectLoops now (m ++ [r1, r2])).isLoop = true := by
  apply detectLoops_isLoop_of_countP now _ r2.cacheKey
  rw [List.filter_append, List.countP_append]
  have h1' : now - 300000 < r1.timestamp := by omega
  have h2' : now - 300000 < r2.timestamp := by omega
  have hfil : List.filter (fun c => decide (now - 5 * 60 * 1000 < c.timestamp)) [r1, r2]
      = [r1, r2] := by
    rw [List.filter_cons, List.filter_cons]
    simp [h1', h2']
  rw [hfil]
  have hcnt : List.countP (fun c => decide (c.cacheKey = r2.cacheKey)) [r1, r2] = 2 := by
    rw [List.countP_cons, List.countP_cons, List.countP_nil]
    simp [hk]
  rw [hcnt]
  omega

/-! ## Helper lemmas: call-history tracking -/

theorem trackCallList_concat (t : Int) (e k : String) (l : List CallRecord) :
    ∃ m, trackCallList t e k l = m ++ [{ endpoint := e, cacheKey := k, timestamp := t }] := by
  unfold trackCallList
  by_cases h : maxRecentCalls < (l ++ [{ endpoint := e, cacheKey := k, timestamp := t : CallRecord }]).length
  · rw [if_pos h]
    cases l with
    | nil => simp [maxRecentCalls] at h
    | cons a l' => exact ⟨l', by simp⟩
  · rw [if_neg h]
    exact ⟨l, rfl⟩

theorem trackCallList_concat₂ (t : Int) (e k : String) (m : List CallRecord)
    (r : CallRecord) :
    ∃ m', trackCallList t e k (m ++ [r]) =
      m' ++ [r, { endpoint := e, cacheKey := k, timestamp := t }] := by
  unfold trackCallList
  by_cases h : maxRecentCalls <
      ((m ++ [r]) ++ [{ endpoint := e, cacheKey := k, timestamp := t : CallRecord }]).length
  · rw [if_pos h]
    cases m with
    | nil => simp [maxRecentCalls] at h
    | cons a m' => exact ⟨m', by simp⟩
  · rw [if_neg h]
    exact ⟨m, by simp⟩

theorem getCachedResult_recentCalls {α : Type} (now : Int) (k : String)
    (st : ClientState α) :
    ((getCachedResult now k st).2).recentCalls = st.recentCalls := by
  unfold getCachedResult
  cases mapGet st.responseCache k with
  | none => rfl
  | some cached =>
    by_cases h : now < cached.timestamp + cached.ttl
    · simp [h]
    · simp [h]

theorem getCachedResult_lastRateLimitInfo {α : Type} (now : Int) (k : String)
    (st : ClientState α) :
    ((getCachedResult now k st).2).lastRateLimitInfo = st.lastRateLimitInfo := by
  unfold getCachedResult
  cases mapGet st.responseCache k with
  | none => rfl
  | some cached =>
    by_cases h : now < cached.timestamp + cached.ttl
    · simp [h]
    · simp [h]

/-! ## Helper lemmas: the branches of `makeApiCall` -/

theorem trackCall_recentCalls {α : Type} (now : Int) (e k : String)
    (st : ClientState α) :
    (trackCall now e k st).recentCalls = trackCallList now e k st.recentCalls := rfl

theorem trackCall_lastRateLimitInfo {α : Type} (now : Int) (e k : String)
    (st : ClientState α) :
    (trackCall now e k st).lastRateLimitInfo = st.lastRateLimitInfo := rfl

theorem trackCall_responseCache {α : Type} (now : Int) (e k : String)
    (st : ClientState α) :
    (trackCall now e k st).responseCache = st.responseCache := rfl

/-- A detected loop makes `makeApiCall` throw the loop error before looking
at the cache result or the network. -/
theorem makeApiCall_loop_case {α : Type} (cc : ClientConfig) (now : Int)
    (e : String) (o : RequestOptions)
    (tr : FetchRequest → Nat → FetchOutcome α) (st : ClientState α)
    (h : (detectLoops now
      (trackCallList now e (generateCacheKey e o) st.recentCalls)).isLoop = true) :
    makeApiCall cc now e o tr st =
      (Except.error (loopErrorMessage e),
       trackCall now e (generateCacheKey e o)
         (getCachedResult now (generateCacheKey e o) st).2) := by
  have hrc : (trackCall now e (generateCacheKey e o)
      (getCachedResult now (generateCacheKey e o) st).2).recentCalls =
      trackCallList now e (generateCacheKey e o) st.recentCalls := by
    rw [trackCall_recentCalls, getCachedResult_recentCalls]
  simp only [makeApiCall, hrc, h, if_true]

/-- With no loop and a fresh cache entry, `makeApiCall` serves the cached
data with the cache-hit marker and clears the rate-limit snapshot. -/
theorem makeApiCall_hit_case {α : Type} (cc : ClientConfig) (now : Int)
    (e : String) (o : RequestOptions)
    (tr : FetchRequest → Nat → FetchOutcome α) (st : ClientState α) (d : α)
    (hloop : (detectLoops now
      (trackCallList now e (generateCacheKey e o) st.recentCalls)).isLoop = false)
    (hhit : (getCachedResult now (generateCacheKey e o) st).1 = some d) :
    makeApiCall cc now e o tr st =
      (Except.ok { data := d, cacheHit := true, cachedAt := some now },
       { trackCall now e (generateCacheKey e o)
           (getCachedResult now (generateCacheKey e o) st).2 with
         lastRateLimitInfo := none }) := by
  have hrc : (trackCall now e (generateCacheKey e o)
      (getCachedResult now (generateCacheKey e o) st).2).recentCalls =
      trackCallList now e (generateCacheKey e o) st.recentCalls := by
    rw [trackCall_recentCalls, getCachedResult_recentCalls]
  simp only [makeApiCall, hrc, hloop, Bool.false_eq_true, if_false, hhit]

/-- With no loop and a cache miss, `makeApiCall` runs the retry engine; a
final network error is re-thrown with the state as tracked. -/
theorem makeApiCall_miss_neterr_case {α : Type} (cc : ClientConfig) (now : Int)
    (e : String) (o : RequestOptions)
    (tr : FetchRequest → Nat → FetchOutcome α) (st : ClientState α) (msg : String)
    (hloop : (detectLoops now
      (trackCallList now e (generateCacheKey e o) st.recentCalls)).isLoop = false)
    (hmiss : (getCachedResult now (generateCacheKey e o) st).1 = none)
    (hres : (fetchWithRetry cc.retryConfig (tr (mkFetchRequest cc e o))).result =
      Except.error msg) :
    makeApiCall cc now e o tr st =
      (Except.error msg,
       trackCall now e (generateCacheKey e o)
         (getCachedResult now (generateCacheKey e o) st).2) := by
  have hrc : (trackCall now e (generateCacheKey e o)
      (getCachedResult now (generateCacheKey e o) st).2).recentCalls =
      trackCallList now e (generateCacheKey e o) st.recentCalls := by
    rw [trackCall_recentCalls, getCachedResult_recentCalls]
  simp only [makeApiCall, hrc, hloop, Bool.false_eq_true, if_false, hmiss, hres]

/-- With no loop, a cache miss and a response from the retry engine,
`makeApiCall` first stores the snapshot extracted from that response, then
classifies the status. -/
theorem makeApiCall_miss_response_case {α : Type} (cc : ClientConfig) (now : Int)
    (e : String) (o : RequestOptions)
    (tr : FetchRequest → Nat → FetchOutcome α) (st : ClientState α)
    (r : Response α)
    (hloop : (detectLoops now
      (trackCallList now e (generateCacheKey e o) st.recentCalls)).isLoop = false)
    (hmiss : (getCachedResult now (generateCacheKey e o) st).1 = none)
    (hres : (fetchWithRetry cc.retryConfig (tr (mkFetchRequest cc e o))).result =
      Except.ok r) :
    makeApiCall cc now e o tr st =
      (let st3 := { trackCall now e (generateCacheKey e o)
          (getCachedResult now (generateCacheKey e o) st).2 with
        lastRateLimitInfo := extractRateLimitInfo r }
      if !responseOk r then
        if r.status = 429 then
          (Except.error (rateLimitErrorMessage (getHeader r "Retry-After")), st3)
        else
          (Except.error (httpErrorMessage r), st3)
      else
        (Except.ok { data := r.jsonBody, cacheHit := false, cachedAt := none },
         setCachedResult now (generateCacheKey e o) r.jsonBody (getCacheTTL e) st3)) := by
  have hrc : (trackCall now e (generateCacheKey e o)
      (getCachedResult now (generateCacheKey e o) st).2).recentCalls =
      trackCallList now e (generateCacheKey e o) st.recentCalls := by
    rw [trackCall_recentCalls, getCachedResult_recentCalls]
  simp only [makeApiCall, hrc, hloop, Bool.false_eq_true, if_false, hmiss, hres]

/-! ## Helper lemmas: the retry loop -/

/-- A retryable `ok` outcome falsifies the early-return condition. -/
theorem retry_cond_false {α : Type} (cfg : RetryConfig) (r : Response α)
    (h : retryOutcome cfg (Except.ok r) = true) :
    (responseOk r || !(cfg.retryableStatusCodes.contains r.status)) = false := by
  have h' : (!responseOk r && cfg.retryableStatusCodes.contains r.status) = true := h
  cases hok : responseOk r
  · cases hmem : cfg.retryableStatusCodes.contains r.status
    · rw [hok, hmem] at h'
      exact absurd h' (by decide)
    · decide
  · rw [hok] at h'
    simp at h'

/-- A non-retryable `ok` outcome satisfies the early-return condition. -/
theorem retry_cond_true {α : Type} (cfg : RetryConfig) (r : Response α)
    (h : retryOutcome cfg (Except.ok r) = false) :
    (responseOk r || !(cfg.retryableStatusCodes.contains r.status)) = true := by
  have h' : (!responseOk r && cfg.retryableStatusCodes.contains r.status) = false := h
  cases hok : responseOk r
  · cases hmem : cfg.retryableStatusCodes.contains r.status
    · decide
    · rw [hok, hmem] at h'
      exact absurd h' (by decide)
  · rfl

/-- Unfolding equation: the final attempt returns the response or re-throws. -/
theorem fetchWithRetryAux_zero {α : Type} (cfg : RetryConfig)
    (f : Nat → FetchOutcome α) (a : Nat) (o : FetchOutcome α) (hf : f a = o) :
    fetchWithRetryAux cfg f a 0 = { attempts := 1, delays := [], result := o } := by
  cases o with
  | ok r => simp only [fetchWithRetryAux, hf]
  | error e => simp only [fetchWithRetryAux, hf]

/-- Unfolding equation: a non-final ok/non-retryable response returns. -/
theorem fetchWithRetryAux_succ_stop {α : Type} (cfg : RetryConfig)
    (f : Nat → FetchOutcome α) (a fuel : Nat) (r : Response α)
    (hf : f a = Except.ok r)
    (hc : (responseOk r || !(cfg.retryableStatusCodes.contains r.status)) = true) :
    fetchWithRetryAux cfg f a (fuel + 1) =
      { attempts := 1, delays := [], result := Except.ok r } := by
  simp only [fetchWithRetryAux, hf]
  rw [if_pos hc]

/-- Unfolding equation: a non-final retryable response sleeps and recurses. -/
theorem fetchWithRetryAux_succ_retry {α : Type} (cfg : RetryConfig)
    (f : Nat → FetchOutcome α) (a fuel : Nat) (r : Response α)
    (hf : f a = Except.ok r)
    (hc : (responseOk r || !(cfg.retryableStatusCodes.contains r.status)) = false) :
    fetchWithRetryAux cfg f a (fuel + 1) =
      { attempts := (fetchWithRetryAux cfg f (a + 1) fuel).attempts + 1
        delays := backoffDelay cfg a :: (fetchWithRetryAux cfg f (a + 1) fuel).delays
        result := (fetchWithRetryAux cfg f (a + 1) fuel).result } := by
  have hn : ¬ (responseOk r || !(cfg.retryableStatusCodes.contains r.status)) = true := by
    rw [hc]; exact Bool.false_ne_true
  simp only [fetchWithRetryAux, hf]
  rw [if_neg hn]

/-- Unfolding equation: a non-final network error sleeps and recurses. -/
theorem fetchWithRetryAux_succ_error {α : Type} (cfg : RetryConfig)
    (f : Nat → FetchOutcome α) (a fuel : Nat) (e : String)
    (hf : f a = Except.error e) :
    fetchWithRetryAux cfg f a (fuel + 1) =
      { attempts := (fetchWithRetryAux cfg f (a + 1) fuel).attempts + 1
        delays := backoffDelay cfg a :: (fetchWithRetryAux cfg f (a + 1) fuel).delays
        result := (fetchWithRetryAux cfg f (a + 1) fuel).result } := by
  simp only [fetchWithRetryAux, hf]

theorem fetchWithRetryAux_attempts_pos {α : Type} (cfg : RetryConfig)
    (f : Nat → FetchOutcome α) (a fuel : Nat) :
    1 ≤ (fetchWithRetryAux cfg f a fuel).attempts := by
  cases fuel with
  | zero =>
    rw [fetchWithRetryAux_zero cfg f a (f a) rfl]
  | succ fuel' =>
    cases hf : f a with
    | ok r =>
      by_cases hc : (responseOk r || !(cfg.retryableStatusCodes.contains r.status)) = true
      · rw [fetchWithRetryAux_succ_stop cfg f a fuel' r hf hc]
      · rw [fetchWithRetryAux_succ_retry cfg f a fuel' r hf (by
          cases hb : (responseOk r || !(cfg.retryableStatusCodes.contains r.status))
          · rfl
          · exact absurd hb hc)]
        exact Nat.le_add_left 1 _
    | error e =>
      rw [fetchWithRetryAux_succ_error cfg f a fuel' e hf]
      exact Nat.le_add_left 1 _

theorem fetchWithRetryAux_all_retry {α : Type} (cfg : RetryConfig)
    (f : Nat → FetchOutcome α) :
    ∀ (fuel a : Nat), (∀ i, i ≤ fuel → retryOutcome cfg (f (a + i)) = true) →
      (fetchWithRetryAux cfg f a fuel).attempts = fuel + 1 ∧
      (fetchWithRetryAux cfg f a fuel).result = f (a + fuel)
  | 0, a, h => by
    rw [fetchWithRetryAux_zero cfg f a (f a) rfl, Nat.add_zero]
    exact ⟨rfl, rfl⟩
  | fuel + 1, a, h => by
    have h0 : retryOutcome cfg (f a) = true := by
      have := h 0 (Nat.zero_le _)
      rwa [Nat.add_zero] at this
    have ih := fetchWithRetryAux_all_retry cfg f fuel (a + 1)
      (fun i hi => by
        have := h (i + 1) (by omega)
        rwa [show a + (i + 1) = a + 1 + i by omega] at this)
    have hstep : fetchWithRetryAux cfg f a (fuel + 1) =
        { attempts := (fetchWithRetryAux cfg f (a + 1) fuel).attempts + 1
          delays := backoffDelay cfg a :: (fetchWithRetryAux cfg f (a + 1) fuel).delays
          result := (fetchWithRetryAux cfg f (a + 1) fuel).result } := by
      cases hf : f a with
      | ok r =>
        rw [hf] at h0
        exact fetchWithRetryAux_succ_retry cfg f a fuel r hf (retry_cond_false cfg r h0)
      | error e =>
        exact fetchWithRetryAux_succ_error cfg f a fuel e hf
    rw [hstep]
    refine ⟨?_, ?_⟩
    · show (fetchWithRetryAux cfg f (a + 1) fuel).attempts + 1 = fuel + 1 + 1
      rw [ih.1]
    · show (fetchWithRetryAux cfg f (a + 1) fuel).result = f (a + (fuel + 1))
      rw [ih.2, show a + 1 + fuel = a + (fuel + 1) by omega]

theorem fetchWithRetryAux_first_not_retry {α : Type} (cfg : RetryConfig)
    (f : Nat → FetchOutcome α) (fuel a : Nat)
    (h : retryOutcome cfg (f a) = false) :
    (fetchWithRetryAux cfg f a fuel).attempts = 1 ∧
    (fetchWithRetryAux cfg f a fuel).result = f a := by
  cases hf : f a with
  | error e =>
    rw [hf] at h
    exact absurd h (by simp [retryOutcome])
  | ok r =>
    rw [hf] at h
    have hc := retry_cond_true cfg r h
    cases fuel with
    | zero =>
      rw [fetchWithRetryAux_zero cfg f a (Except.ok r) hf]
      exact ⟨rfl, rfl⟩
    | succ fuel' =>
      rw [fetchWithRetryAux_succ_stop cfg f a fuel' r hf hc]
      exact ⟨rfl, rfl⟩

theorem fetchWithRetryAux_attempts_gt_iff {α : Type} (cfg : RetryConfig)
    (f : Nat → FetchOutcome α) :
    ∀ (fuel a j : Nat), j < fuel →
      (j + 1 < (fetchWithRetryAux cfg f a fuel).attempts ↔
        ∀ i, i ≤ j → retryOutcome cfg (f (a + i)) = true)
  | 0, a, j, hj => absurd hj (Nat.not_lt_zero j)
  | fuel + 1, a, j, hj => by
    by_cases h0 : retryOutcome cfg (f a) = true
    · have hstep : fetchWithRetryAux cfg f a (fuel + 1) =
          { attempts := (fetchWithRetryAux cfg f (a + 1) fuel).attempts + 1
            delays := backoffDelay cfg a :: (fetchWithRetryAux cfg f (a + 1) fuel).delays
            result := (fetchWithRetryAux cfg f (a + 1) fuel).result } := by
        cases hf : f a with
        | ok r =>
          rw [hf] at h0
          exact fetchWithRetryAux_succ_retry cfg f a fuel r hf (retry_cond_false cfg r h0)
        | error e =>
          exact fetchWithRetryAux_succ_error cfg f a fuel e hf
      rw [hstep]
      show j + 1 < (fetchWithRetryAux cfg f (a + 1) fuel).attempts + 1 ↔ _
      cases j with
      | zero =>
        constructor
        · intro _ i hi
          have hiz : i = 0 := by omega
          rw [hiz, Nat.add_zero]
          exact h0
        · intro _
          have := fetchWithRetryAux_attempts_pos cfg f (a + 1) fuel
          omega
      | succ j' =>
        have ih := fetchWithRetryAux_attempts_gt_iff cfg f fuel (a + 1) j' (by omega)
        constructor
        · intro hlt i hi
          rcases Nat.eq_zero_or_pos i with hi0 | hipos
          · rw [hi0, Nat.add_zero]
            exact h0
          · obtain ⟨i', rfl⟩ : ∃ i', i = i' + 1 := ⟨i - 1, by omega⟩
            have := ih.mp (by omega) i' (by omega)
            rwa [show a + 1 + i' = a + (i' + 1) by omega] at this
        · intro hall
          have hshift : ∀ i, i ≤ j' → retryOutcome cfg (f (a + 1 + i)) = true := by
            intro i hi
            have := hall (i + 1) (by omega)
            rwa [show a + (i + 1) = a + 1 + i by omega] at this
          have := ih.mpr hshift
          omega
    · have h0' : retryOutcome cfg (f a) = false := by
        cases hb : retryOutcome cfg (f a)
        · rfl
        · exact absurd hb h0
      have hfix := fetchWithRetryAux_first_not_retry cfg f (fuel + 1) a h0'
      rw [hfix.1]
      constructor
      · intro hlt; omega
      · intro hall
        have := hall 0 (Nat.zero_le _)
        rw [Nat.add_zero] at this
        rw [this] at h0'
        cases h0'

theorem fetchWithRetryAux_delays_get {α : Type} (cfg : RetryConfig)
    (f : Nat → FetchOutcome α) :
    ∀ (fuel a i : Nat) (d : Nat),
      (fetchWithRetryAux cfg f a fuel).delays[i]? = some d →
      d = backoffDelay cfg (a + i)
  | 0, a, i, d, h => by
    rw [fetchWithRetryAux_zero cfg f a (f a) rfl] at h
    simp at h
  | fuel + 1, a, i, d, h => by
    have hcons : ∀ (hstep : fetchWithRetryAux cfg f a (fuel + 1) =
        { attempts := (fetchWithRetryAux cfg f (a + 1) fuel).attempts + 1
          delays := backoffDelay cfg a :: (fetchWithRetryAux cfg f (a + 1) fuel).delays
          result := (fetchWithRetryAux cfg f (a + 1) fuel).result }),
        d = backoffDelay cfg (a + i) := by
      intro hstep
      rw [hstep] at h
      cases i with
      | zero =>
        rw [List.getElem?_cons_zero] at h
        have hd : backoffDelay cfg a = d := by injection h
        rw [Nat.add_zero, ← hd]
      | succ i' =>
        rw [List.getElem?_cons_succ] at h
        have := fetchWithRetryAux_delays_get cfg f fuel (a + 1) i' d h
        rw [this, show a + 1 + i' = a + (i' + 1) by omega]
    cases hf : f a with
    | ok r =>
      by_cases hc : (responseOk r || !(cfg.retryableStatusCodes.contains r.status)) = true
      · rw [fetchWithRetryAux_succ_stop cfg f a fuel r hf hc] at h
        simp at h
      · exact hcons (fetchWithRetryAux_succ_retry cfg f a fuel r hf (by
          cases hb : (responseOk r || !(cfg.retryableStatusCodes.contains r.status))
          · rfl
          · exact absurd hb hc))
    | error e =>
      exact hcons (fetchWithRetryAux_succ_error cfg f a fuel e hf)

theorem fetchWithRetryAux_delays_length {α : Type} (cfg : RetryConfig)
    (f : Nat → FetchOutcome α) :
    ∀ (fuel a : Nat),
      (fetchWithRetryAux cfg f a fuel).delays.length =
        (fetchWithRetryAux cfg f a fuel).attempts - 1
  | 0, a => by
    rw [fetchWithRetryAux_zero cfg f a (f a) rfl]
    rfl
  | fuel + 1, a => by
    have ih := fetchWithRetryAux_delays_length cfg f fuel (a + 1)
    have hpos := fetchWithRetryAux_attempts_pos cfg f (a + 1) fuel
    cases hf : f a with
    | ok r =>
      by_cases hc : (responseOk r || !(cfg.retryableStatusCodes.contains r.status)) = true
      · rw [fetchWithRetryAux_succ_stop cfg f a fuel r hf hc]
        rfl
      · rw [fetchWithRetryAux_succ_retry cfg f a fuel r hf (by
          cases hb : (responseOk r || !(cfg.retryableStatusCodes.contains r.status))
          · rfl
          · exact absurd hb hc)]
        show (backoffDelay cfg a :: (fetchWithRetryAux cfg f (a + 1) fuel).delays).length =
          (fetchWithRetryAux cfg f (a + 1) fuel).attempts + 1 - 1
        rw [List.length_cons, ih]
        omega
    | error e =>
      rw [fetchWithRetryAux_succ_error cfg f a fuel e hf]
      show (backoffDelay cfg a :: (fetchWithRetryAux cfg f (a + 1) fuel).delays).length =
        (fetchWithRetryAux cfg f (a + 1) fuel).attempts + 1 - 1
      rw [List.length_cons, ih]
      omega

/-! ## Helper lemmas: state shape of `makeApiCall`, second-call loops -/

theorem setCachedResult_recentCalls {α : Type} (now : Int) (k : String) (d : α)
    (ttl : Int) (st : ClientState α) :
    (setCachedResult now k d ttl st).recentCalls = st.recentCalls := rfl

theorem setCachedResult_lastRateLimitInfo {α : Type} (now : Int) (k : String)
    (d : α) (ttl : Int) (st : ClientState α) :
    (setCachedResult now k d ttl st).lastRateLimitInfo = st.lastRateLimitInfo := rfl

/-- Whatever branch `makeApiCall` takes, the history afterwards is the
tracked history. -/
theorem makeApiCall_recentCalls {α : Type} (cc : ClientConfig) (now : Int)
    (e : String) (o : RequestOptions)
    (tr : FetchRequest → Nat → FetchOutcome α) (st : ClientState α) :
    (makeApiCall cc now e o tr st).2.recentCalls =
      trackCallList now e (generateCacheKey e o) st.recentCalls := by
  have hbase : (trackCall now e (generateCacheKey e o)
      (getCachedResult now (generateCacheKey e o) st).2).recentCalls =
      trackCallList now e (generateCacheKey e o) st.recentCalls := by
    rw [trackCall_recentCalls, getCachedResult_recentCalls]
  by_cases hloop : (detectLoops now
      (trackCallList now e (generateCacheKey e o) st.recentCalls)).isLoop = true
  · rw [makeApiCall_loop_case cc now e o tr st hloop]
    exact hbase
  · have hl : (detectLoops now
        (trackCallList now e (generateCacheKey e o) st.recentCalls)).isLoop = false := by
      cases hb : (detectLoops now
          (trackCallList now e (generateCacheKey e o) st.recentCalls)).isLoop
      · rfl
      · exact absurd hb hloop
    cases hhit : (getCachedResult now (generateCacheKey e o) st).1 with
    | some d =>
      rw [makeApiCall_hit_case cc now e o tr st d hl hhit]
      exact hbase
    | none =>
      cases hres : (fetchWithRetry cc.retryConfig (tr (mkFetchRequest cc e o))).result with
      | error msg =>
        rw [makeApiCall_miss_neterr_case cc now e o tr st msg hl hhit hres]
        exact hbase
      | ok r =>
        rw [makeApiCall_miss_response_case cc now e o tr st r hl hhit hres]
        by_cases hok : (!responseOk r) = true
        · rw [if_pos hok]
          by_cases h429 : r.status = 429
          · rw [if_pos h429]
            exact hbase
          · rw [if_neg h429]
            exact hbase
        · rw [if_neg hok]
          rw [setCachedResult_recentCalls]
          exact hbase

/-- Two calls with the same cache key within the five-minute window: the
second one is rejected with the loop error, whatever the cache holds. -/
theorem secondCall_loop {α : Type} (cc cc' : ClientConfig) (st : ClientState α)
    (e : String) (o₁ o₂ : RequestOptions)
    (tr₁ tr₂ : FetchRequest → Nat → FetchOutcome α) (t₁ t₂ : Int)
    (hkey : generateCacheKey e o₁ = generateCacheKey e o₂)
    (ht : t₂ - 5 * 60 * 1000 < t₁) :
    (makeApiCall cc' t₂ e o₂ tr₂ (makeApiCall cc t₁ e o₁ tr₁ st).2).1 =
      Except.error (loopErrorMessage e) := by
  have hrc := makeApiCall_recentCalls cc t₁ e o₁ tr₁ st
  obtain ⟨m₁, hm₁⟩ := trackCallList_concat t₁ e (generateCacheKey e o₁) st.recentCalls
  obtain ⟨m₂, hm₂⟩ := trackCallList_concat₂ t₂ e (generateCacheKey e o₂) m₁
    { endpoint := e, cacheKey := generateCacheKey e o₁, timestamp := t₁ }
  have hloop : (detectLoops t₂ (trackCallList t₂ e (generateCacheKey e o₂)
      (makeApiCall cc t₁ e o₁ tr₁ st).2.recentCalls)).isLoop = true := by
    rw [hrc, hm₁, hm₂]
    refine detectLoops_two_records t₂ m₂ _ _ ?_ ?_ ?_
    · exact hkey
    · exact ht
    · show t₂ - 5 * 60 * 1000 < t₂
      omega
  rw [makeApiCall_loop_case cc' t₂ e o₂ tr₂ _ hloop]

/-! ## Helper lemmas: query-string construction -/

theorem buildQueryParams_foldl (params : List (String × JsParam)) :
    ∀ acc : List (String × String),
      params.foldl
        (fun urlParams p =>
          if isPresentParam p.2 then urlParams ++ [(p.1, jsString p.2)] else urlParams)
        acc =
      acc ++ (params.filter (fun p => isPresentParam p.2)).map
        (fun p => (p.1, jsString p.2)) := by
  induction params with
  | nil => intro acc; simp
  | cons p rest ih =>
    intro acc
    rw [List.foldl_cons, List.filter_cons]
    by_cases hp : isPresentParam p.2 = true
    · rw [if_pos hp, hp, if_pos rfl, List.map_cons, ih]
      simp
    · have hp' : isPresentParam p.2 = false := by
        cases hb : isPresentParam p.2
        · rfl
        · exact absurd hb hp
      rw [if_neg hp, hp']
      simp only [Bool.false_eq_true, if_neg, not_false_iff]
      exact ih acc

/-- `buildQueryParams` keeps exactly the present entries, stringified, in
iteration order. -/
theorem buildQueryParams_eq (params : List (String × JsParam)) :
    buildQueryParams params =
      (params.filter (fun p => isPresentParam p.2)).map
        (fun p => (p.1, jsString p.2)) := by
  unfold buildQueryParams
  rw [buildQueryParams_foldl]
  rfl

theorem str_ne_empty_of_length_pos (s : String) (h : 0 < s.length) : s ≠ "" := by
  intro he
  rw [he] at h
  exact absurd h (by decide)

theorem encodePair_length_pos (p : String × String) : 0 < (encodePair p).length := by
  unfold encodePair
  rw [String.length_append, String.length_append]
  have h1 : ("=" : String).length = 1 := rfl
  omega

theorem urlParamsToString_length_pos (p : String × String)
    (l : List (String × String)) : 0 < (urlParamsToString (p :: l)).length := by
  cases l with
  | nil => exact encodePair_length_pos p
  | cons q rest =>
    show 0 < (encodePair p ++ "&" ++ urlParamsToString (q :: rest)).length
    rw [String.length_append, String.length_append]
    have h1 : ("&" : String).length = 1 := rfl
    omega

/-! ## Helper lemmas: cache lookups -/

theorem getCachedResult_hit {α : Type} (now : Int) (k : String)
    (st : ClientState α) (entry : CacheEntry α)
    (h1 : mapGet st.responseCache k = some entry)
    (h2 : now < entry.timestamp + entry.ttl) :
    getCachedResult now k st = (some entry.data, st) := by
  simp only [getCachedResult, h1]
  rw [if_pos h2]

theorem getCachedResult_expired {α : Type} (now : Int) (k : String)
    (st : ClientState α) (entry : CacheEntry α)
    (h1 : mapGet st.responseCache k = some entry)
    (h2 : ¬ now < entry.timestamp + entry.ttl) :
    getCachedResult now k st =
      (none, { st with responseCache := mapDelete st.responseCache k }) := by
  simp only [getCachedResult, h1]
  rw [if_neg h2]

theorem getCachedResult_absent {α : Type} (now : Int) (k : String)
    (st : ClientState α) (h1 : mapGet st.responseCache k = none) :
    getCachedResult now k st = (none, st) := by
  simp only [getCachedResult, h1]

/-! ## Claims -/

/-- C1: whenever the same cache key (method, endpoint, serialized body) is
used a second time within 5 minutes of the first call, the second
invocation of `makeApiCall` throws the loop-detection error — for every
starting state, so in particular even when a valid (non-expired) cache
entry exists for that key: the loop failure takes precedence over serving
the cache. -/
theorem C1_second_identical_call_throws_loop {α : Type}
    (cc cc' : ClientConfig) (st : ClientState α) (e : String)
    (o₁ o₂ : RequestOptions) (tr₁ tr₂ : FetchRequest → Nat → FetchOutcome α)
    (t₁ t₂ : Int)
    (hkey : generateCacheKey e o₁ = generateCacheKey e o₂)
    (ht : t₂ - 5 * 60 * 1000 < t₁) :
    (makeApiCall cc' t₂ e o₂ tr₂ (makeApiCall cc t₁ e o₁ tr₁ st).2).1 =
      Except.error (loopErrorMessage e) :=
  secondCall_loop cc cc' st e o₁ o₂ tr₁ tr₂ t₁ t₂ hkey ht

/-- Witness for C1: a starting state holding a fresh cache entry for
`GET /user/rooms`; the second identical call one millisecond later is
rejected with the loop error rather than served from the cache. -/
theorem C1_witness :
    mapGet stWithFreshEntry.responseCache
      (generateCacheKey "/user/rooms" emptyOptions) =
      some { data := 42, timestamp := 0, ttl := 1000000000 }
    ∧ ((60001 : Int) < 0 + 1000000000)
    ∧ (makeApiCall sampleCC 60001 "/user/rooms" emptyOptions
        (fun _ _ => Except.ok respNoRL)
        (makeApiCall sampleCC 60000 "/user/rooms" emptyOptions
          (fun _ _ => Except.ok respNoRL) stWithFreshEntry).2).1 =
      Except.error (loopErrorMessage "/user/rooms") :=
  ⟨rfl, by decide,
    C1_second_identical_call_throws_loop sampleCC sampleCC stWithFreshEntry
      "/user/rooms" emptyOptions emptyOptions _ _ 60000 60001 rfl (by decide)⟩

/-- C9: `generateCacheKey` defaults an absent HTTP method to `GET`, so a
call with no method and a call with method `GET` share one cache key, and
therefore alias for caching and loop detection: the second of the two made
within 5 minutes throws the loop error. -/
theorem C9_absent_method_aliases_GET :
    (∀ (e : String) (b : Option String) (h : List (String × String)),
      generateCacheKey e { method := none, body := b, headers := h } =
      generateCacheKey e { method := some "GET", body := b, headers := h })
    ∧ (∀ {α : Type} (cc cc' : ClientConfig) (st : ClientState α) (e : String)
        (b : Option String) (hd : List (String × String))
        (tr₁ tr₂ : FetchRequest → Nat → FetchOutcome α) (t₁ t₂ : Int),
        t₂ - 5 * 60 * 1000 < t₁ →
        (makeApiCall cc' t₂ e { method := some "GET", body := b, headers := hd } tr₂
          (makeApiCall cc t₁ e { method := none, body := b, headers := hd } tr₁ st).2).1 =
          Except.error (loopErrorMessage e)) := by
  constructor
  · intro e b h
    rfl
  · intro α cc cc' st e b hd tr₁ tr₂ t₁ t₂ ht
    exact secondCall_loop cc cc' st e _ _ tr₁ tr₂ t₁ t₂ rfl ht

/-- Witness for C9: concrete aliasing pair and concrete loop rejection. -/
theorem C9_witness :
    generateCacheKey "/user/rooms" emptyOptions =
      generateCacheKey "/user/rooms"
        { method := some "GET", body := none, headers := [] }
    ∧ (makeApiCall sampleCC 1 "/user/rooms"
        { method := some "GET", body := none, headers := [] }
        (fun _ _ => Except.ok respNoRL)
        (makeApiCall sampleCC 0 "/user/rooms" emptyOptions
          (fun _ _ => Except.ok respNoRL) stEmpty).2).1 =
      Except.error (loopErrorMessage "/user/rooms") :=
  ⟨C9_absent_method_aliases_GET.1 "/user/rooms" none [],
    C9_absent_method_aliases_GET.2 sampleCC sampleCC stEmpty "/user/rooms"
      none [] _ _ 0 1 (by decide)⟩

/-- C6: with no loop detected and a fresh cache entry for the key,
`makeApiCall` resolves with the cached data marked as a cache hit, clears
the rate-limit snapshot, and performs no network request (the outcome does
not depend on the transport at all). -/
theorem C6_fresh_cache_hit_serves_cache {α : Type} (cc : ClientConfig)
    (st : ClientState α) (t : Int) (e : String) (o : RequestOptions)
    (tr tr' : FetchRequest → Nat → FetchOutcome α) (entry : CacheEntry α)
    (hentry : mapGet st.responseCache (generateCacheKey e o) = some entry)
    (hfresh : t < entry.timestamp + entry.ttl)
    (hnoloop : (detectLoops t
      (trackCallList t e (generateCacheKey e o) st.recentCalls)).isLoop = false) :
    (makeApiCall cc t e o tr st).1 =
      Except.ok { data := entry.data, cacheHit := true, cachedAt := some t }
    ∧ (makeApiCall cc t e o tr st).2.lastRateLimitInfo = none
    ∧ makeApiCall cc t e o tr st = makeApiCall cc t e o tr' st := by
  have hhit : (getCachedResult t (generateCacheKey e o) st).1 = some entry.data := by
    rw [getCachedResult_hit t _ st entry hentry hfresh]
  refine ⟨?_, ?_, ?_⟩
  · rw [makeApiCall_hit_case cc t e o tr st entry.data hnoloop hhit]
  · rw [makeApiCall_hit_case cc t e o tr st entry.data hnoloop hhit]
  · rw [makeApiCall_hit_case cc t e o tr st entry.data hnoloop hhit,
      makeApiCall_hit_case cc t e o tr' st entry.data hnoloop hhit]

/-- Witness for C6: the fresh `GET /user/rooms` entry is served as a cache
hit with the snapshot cleared, identically for two different transports. -/
theorem C6_witness :
    (makeApiCall sampleCC 60000 "/user/rooms" emptyOptions
        (fun _ _ => Except.ok respNoRL) stWithFreshEntry).1 =
      Except.ok { data := 42, cacheHit := true, cachedAt := some 60000 }
    ∧ (makeApiCall sampleCC 60000 "/user/rooms" emptyOptions
        (fun _ _ => Except.ok respNoRL) stWithFreshEntry).2.lastRateLimitInfo = none
    ∧ makeApiCall sampleCC 60000 "/user/rooms" emptyOptions
        (fun _ _ => Except.ok respNoRL) stWithFreshEntry =
      makeApiCall sampleCC 60000 "/user/rooms" emptyOptions
        (fun _ _ => Except.error "connection reset") stWithFreshEntry :=
  C6_fresh_cache_hit_serves_cache sampleCC stWithFreshEntry 60000 "/user/rooms"
    emptyOptions _ _ { data := 42, timestamp := 0, ttl := 1000000000 }
    rfl (by decide) (by decide)

/-- C7: a lookup serves an entry iff `now < storedAt + ttl`; a lookup that
finds an expired entry deletes it and reports a miss (lazy purge); a store
replaces the entry under its key and leaves every other key unchanged. -/
theorem C7_cache_validity_invariant {α : Type} (st : ClientState α)
    (now : Int) (k : String) :
    (∀ d : α, (getCachedResult now k st).1 = some d ↔
      ∃ entry, mapGet st.responseCache k = some entry ∧
        now < entry.timestamp + entry.ttl ∧ entry.data = d)
    ∧ (∀ entry, mapGet st.responseCache k = some entry →
        ¬ now < entry.timestamp + entry.ttl →
        (getCachedResult now k st).1 = none ∧
        (getCachedResult now k st).2.responseCache = mapDelete st.responseCache k)
    ∧ (∀ (d : α) (ttl : Int),
        mapGet (setCachedResult now k d ttl st).responseCache k =
          some { data := d, timestamp := now, ttl := ttl }
        ∧ ∀ k', k' ≠ k →
            mapGet (setCachedResult now k d ttl st).responseCache k' =
              mapGet st.responseCache k') := by
  refine ⟨?_, ?_, ?_⟩
  · intro d
    constructor
    · intro h
      cases hm : mapGet st.responseCache k with
      | none => rw [getCachedResult_absent now k st hm] at h; cases h
      | some entry =>
        by_cases hfresh : now < entry.timestamp + entry.ttl
        · rw [getCachedResult_hit now k st entry hm hfresh] at h
          exact ⟨entry, rfl, hfresh, by injection h⟩
        · rw [getCachedResult_expired now k st entry hm hfresh] at h
          cases h
    · rintro ⟨entry, hm, hfresh, hd⟩
      rw [getCachedResult_hit now k st entry hm hfresh, hd]
  · intro entry hm hstale
    rw [getCachedResult_expired now k st entry hm hstale]
    exact ⟨rfl, rfl⟩
  · intro d ttl
    refine ⟨?_, ?_⟩
    · show mapGet (mapSet st.responseCache k _) k = _
      rw [mapGet_mapSet_self]
    · intro k' hk'
      show mapGet (mapSet st.responseCache k _) k' = _
      rw [mapGet_mapSet_ne _ _ _ _ hk']

/-- Witness for C7: the expired entry under `"k"` (stored at 0, ttl 5,
read at 10) is purged by the lookup, and a store makes the entry
retrievable. -/
theorem C7_witness :
    (getCachedResult 10 "k" stWithExpiredEntry).1 = none
    ∧ (getCachedResult 10 "k" stWithExpiredEntry).2.responseCache =
        mapDelete stWithExpiredEntry.responseCache "k"
    ∧ mapGet (setCachedResult 10 "k" (9 : Nat) 30000 stWithExpiredEntry).responseCache
        "k" = some { data := 9, timestamp := 10, ttl := 30000 } :=
  ⟨((C7_cache_validity_invariant stWithExpiredEntry 10 "k").2.1
      { data := 7, timestamp := 0, ttl := 5 } rfl (by decide)).1,
   ((C7_cache_validity_invariant stWithExpiredEntry 10 "k").2.1
      { data := 7, timestamp := 0, ttl := 5 } rfl (by decide)).2,
   ((C7_cache_validity_invariant stWithExpiredEntry 10 "k").2.2 9 30000).1⟩

/-- C2 (counterexample to the claim as stated): under the policy `cfg200`,
whose retryable set contains the success status 200, a call whose every
response has status 200 — a status in `retryableStatusCodes` — makes one
single attempt, not `maxRetries + 1 = 4`: the engine never retries an `ok`
(2xx) response, even when its status is listed as retryable. -/
theorem C2_counterexample :
    resp200c.status ∈ cfg200.retryableStatusCodes
    ∧ (fetchWithRetry cfg200 (fun _ => Except.ok resp200c)).attempts = 1
    ∧ cfg200.maxRetries + 1 = 4 :=
  ⟨by decide, rfl, rfl⟩

/-- C2 (amended): a fetch outcome is retried iff it is a thrown
network-level error, or a response whose status is **not a 2xx success**
and is in `retryableStatusCodes` (`retryOutcome`).  With that
qualification: when every outcome up to `maxRetries` is retryable the call
makes exactly `maxRetries + 1` attempts and the final outcome is returned
as-is (a final retryable response is returned, a final network error is
re-thrown); when the first outcome is not retryable (e.g. 404/401/403/400
under the default policy) exactly one attempt is made; and in general
attempt `j + 2` happens iff outcomes `0..j` were all retryable. -/
theorem C2_retry_characterization {α : Type} (cfg : RetryConfig)
    (f : Nat → FetchOutcome α) :
    ((∀ i, i ≤ cfg.maxRetries → retryOutcome cfg (f i) = true) →
      (fetchWithRetry cfg f).attempts = cfg.maxRetries + 1 ∧
      (fetchWithRetry cfg f).result = f cfg.maxRetries)
    ∧ (retryOutcome cfg (f 0) = false →
      (fetchWithRetry cfg f).attempts = 1 ∧ (fetchWithRetry cfg f).result = f 0)
    ∧ (∀ j, j < cfg.maxRetries →
      (j + 1 < (fetchWithRetry cfg f).attempts ↔
        ∀ i, i ≤ j → retryOutcome cfg (f i) = true)) := by
  refine ⟨?_, ?_, ?_⟩
  · intro h
    have := fetchWithRetryAux_all_retry cfg f cfg.maxRetries 0
      (fun i hi => by rw [Nat.zero_add]; exact h i hi)
    refine ⟨this.1, ?_⟩
    have h2 := this.2
    rwa [Nat.zero_add] at h2
  · intro h
    exact fetchWithRetryAux_first_not_retry cfg f cfg.maxRetries 0 h
  · intro j hj
    have := fetchWithRetryAux_attempts_gt_iff cfg f cfg.maxRetries 0 j hj
    constructor
    · intro hlt i hi
      have h := this.mp hlt i hi
      rwa [Nat.zero_add] at h
    · intro hall
      exact this.mpr (fun i hi => by rw [Nat.zero_add]; exact hall i hi)

/-- Witness for C2: under the default policy (408/429/500/502/503/504
retryable, `maxRetries = 3`) a constant-500 transport is attempted 4 times
and its final response returned as-is, while a 404 is attempted once. -/
theorem C2_witness :
    ((fetchWithRetry DEFAULT_RETRY_CONFIG
        (fun _ => Except.ok resp500W)).attempts = 4
      ∧ (fetchWithRetry DEFAULT_RETRY_CONFIG
          (fun _ => Except.ok resp500W)).result = Except.ok resp500W)
    ∧ (fetchWithRetry DEFAULT_RETRY_CONFIG
        (fun _ => Except.ok resp404W)).attempts = 1 :=
  ⟨(C2_retry_characterization DEFAULT_RETRY_CONFIG
      (fun _ => Except.ok resp500W)).1 (fun i _ => by decide),
   ((C2_retry_characterization DEFAULT_RETRY_CONFIG
      (fun _ => Except.ok resp404W)).2.1 (by decide)).1⟩

/-- C3: the backoff delay recorded before attempt `k` (1-indexed, `k ≥ 2`),
which is the `(k-2)`-th entry of the delay trace, equals
`min(initialDelayMs * 2 ^ (k - 2), maxDelayMs)`; there is one delay per
attempt beyond the first. -/
theorem C3_backoff_delay_formula {α : Type} (cfg : RetryConfig)
    (f : Nat → FetchOutcome α) (k d : Nat) (hk : 2 ≤ k)
    (hd : (fetchWithRetry cfg f).delays[k - 2]? = some d) :
    d = min (cfg.initialDelayMs * 2 ^ (k - 2)) cfg.maxDelayMs
    ∧ (fetchWithRetry cfg f).delays.length = (fetchWithRetry cfg f).attempts - 1 := by
  constructor
  · have := fetchWithRetryAux_delays_get cfg f cfg.maxRetries 0 (k - 2) d hd
    rw [this]
    unfold backoffDelay
    rw [Nat.zero_add]
  · exact fetchWithRetryAux_delays_length cfg f cfg.maxRetries 0

/-- Witness for C3: constant 500s under the default policy sleep
`[1000, 2000, 4000]`; the delay before attempt 3 is `2000 =
min(1000 * 2^1, 10000)`. -/
theorem C3_witness :
    (fetchWithRetry DEFAULT_RETRY_CONFIG
        (fun _ => Except.ok resp500W)).delays = [1000, 2000, 4000]
    ∧ (2000 : Nat) = min (DEFAULT_RETRY_CONFIG.initialDelayMs * 2 ^ (3 - 2))
        DEFAULT_RETRY_CONFIG.maxDelayMs
    ∧ (fetchWithRetry DEFAULT_RETRY_CONFIG
        (fun _ => Except.ok resp500W)).delays.length =
      (fetchWithRetry DEFAULT_RETRY_CONFIG
        (fun _ => Except.ok resp500W)).attempts - 1 :=
  ⟨rfl,
   (C3_backoff_delay_formula DEFAULT_RETRY_CONFIG
      (fun _ => Except.ok resp500W) 3 2000 (by decide) rfl).1,
   (C3_backoff_delay_formula DEFAULT_RETRY_CONFIG
      (fun _ => Except.ok resp500W) 3 2000 (by decide) rfl).2⟩

/-- C4 (counterexample to the claim as stated): the state holds a snapshot
(`some rlPrev`); a non-cached 200 response with **no** rate-limit headers
is processed, and afterwards the snapshot is `none` — it was cleared, not
"left untouched": `makeApiCall` overwrites `lastRateLimitInfo`
unconditionally with the extraction result. -/
theorem C4_counterexample :
    stWithRL.lastRateLimitInfo = some rlPrev
    ∧ respNoRL.headers = []
    ∧ (makeApiCall sampleCC 0 "/stats" emptyOptions
        (fun _ _ => Except.ok respNoRL) stWithRL).2.lastRateLimitInfo = none :=
  ⟨rfl, rfl, rfl⟩

/-- C4 (amended): on every non-cached response `r` that `makeApiCall`
processes, the snapshot is **replaced by the extraction result of `r`**:
when all three rate-limit headers are present and non-empty it becomes
their `parseInt` values, and otherwise it is cleared to `none` (the
previous snapshot is not preserved). -/
theorem C4_snapshot_overwritten {α : Type} (cc : ClientConfig) (now : Int)
    (e : String) (o : RequestOptions)
    (tr : FetchRequest → Nat → FetchOutcome α) (st : ClientState α)
    (r : Response α)
    (hloop : (detectLoops now
      (trackCallList now e (generateCacheKey e o) st.recentCalls)).isLoop = false)
    (hmiss : (getCachedResult now (generateCacheKey e o) st).1 = none)
    (hres : (fetchWithRetry cc.retryConfig (tr (mkFetchRequest cc e o))).result =
      Except.ok r) :
    (makeApiCall cc now e o tr st).2.lastRateLimitInfo = extractRateLimitInfo r
    ∧ extractRateLimitInfo r =
        (if specRateHeadersPresent r then some (specParsedRateLimitInfo r)
         else none) := by
  constructor
  · rw [makeApiCall_miss_response_case cc now e o tr st r hloop hmiss hres]
    simp only []
    by_cases hok : (!responseOk r) = true
    · rw [if_pos hok]
      by_cases h429 : r.status = 429
      · rw [if_pos h429]
      · rw [if_neg h429]
    · rw [if_neg hok]
      rfl
  · cases hl : getHeader r "X-RateLimit-Limit" with
    | none => simp [extractRateLimitInfo, specRateHeadersPresent, hl]
    | some l =>
      cases hm : getHeader r "X-RateLimit-Remaining" with
      | none => simp [extractRateLimitInfo, specRateHeadersPresent, hl, hm]
      | some m =>
        cases hs : getHeader r "X-RateLimit-Reset" with
        | none => simp [extractRateLimitInfo, specRateHeadersPresent, hl, hm, hs]
        | some s =>
          simp only [extractRateLimitInfo, specRateHeadersPresent,
            specParsedRateLimitInfo, hl, hm, hs, Option.getD_some]
          by_cases h1 : l = ""
          · simp [h1]
          · by_cases h2 : m = ""
            · simp [h1, h2]
            · by_cases h3 : s = ""
              · simp [h1, h2, h3]
              · simp [h1, h2, h3]

/-- Witness for C4: a 200 response carrying the three headers replaces the
old snapshot with the parsed values. -/
theorem C4_witness :
    (makeApiCall sampleCC 0 "/stats" emptyOptions
        (fun _ _ => Except.ok respWithRL) stWithRL).2.lastRateLimitInfo =
      extractRateLimitInfo respWithRL
    ∧ extractRateLimitInfo respWithRL =
        (if specRateHeadersPresent respWithRL
         then some (specParsedRateLimitInfo respWithRL) else none)
    ∧ extractRateLimitInfo respWithRL =
        some { remaining := JsNum.val 5, resetTime := JsNum.val 1234
               limit := JsNum.val 100 } :=
  ⟨(C4_snapshot_overwritten sampleCC 0 "/stats" emptyOptions
      (fun _ _ => Except.ok respWithRL) stWithRL respWithRL
      (by decide) rfl rfl).1,
   (C4_snapshot_overwritten sampleCC 0 "/stats" emptyOptions
      (fun _ _ => Except.ok respWithRL) stWithRL respWithRL
      (by decide) rfl rfl).2,
   rfl⟩

/-- C5: the failing input from the repository's own test suite
(`should throw AuthenticationError on 401 response`): a call whose final
response is 401.  In the source the rejection is a plain
`Error("HTTP 401: Unauthorized")` — the same shape as every other non-2xx
failure (cf. the 500 case) — so the embedding's error type is just the
message string: no `AuthenticationFailed` kind, code, or class
distinguishes a 401 from a generic HTTP error without inspecting the
message text. -/
theorem C5_http401_is_untyped_message :
    (makeApiCall sampleCC 0 "/test-401" emptyOptions
        (fun _ _ => Except.ok resp401W) stEmpty).1 =
      Except.error "HTTP 401: Unauthorized"
    ∧ (makeApiCall sampleCC 0 "/test-500" emptyOptions
        (fun _ _ => Except.ok resp500W) stEmpty).1 =
      Except.error "HTTP 500: Server Error"
    ∧ httpErrorMessage resp401W = "HTTP 401: Unauthorized" :=
  ⟨rfl, rfl, rfl⟩

/-- C10: with no loop and a cache miss, when the retry engine delivers a
final non-2xx response the snapshot has already been overwritten from that
response's headers by the time the rate-limit/HTTP error propagates; when
the engine re-throws a network error instead, the snapshot is left
exactly as it was. -/
theorem C10_snapshot_updated_before_error {α : Type} (cc : ClientConfig)
    (now : Int) (e : String) (o : RequestOptions)
    (tr : FetchRequest → Nat → FetchOutcome α) (st : ClientState α)
    (hloop : (detectLoops now
      (trackCallList now e (generateCacheKey e o) st.recentCalls)).isLoop = false)
    (hmiss : (getCachedResult now (generateCacheKey e o) st).1 = none) :
    (∀ r : Response α,
      (fetchWithRetry cc.retryConfig (tr (mkFetchRequest cc e o))).result =
        Except.ok r →
      responseOk r = false →
      (∃ msg, (makeApiCall cc now e o tr st).1 = Except.error msg) ∧
      (makeApiCall cc now e o tr st).2.lastRateLimitInfo = extractRateLimitInfo r)
    ∧ (∀ msg,
      (fetchWithRetry cc.retryConfig (tr (mkFetchRequest cc e o))).result =
        Except.error msg →
      (makeApiCall cc now e o tr st).1 = Except.error msg ∧
      (makeApiCall cc now e o tr st).2.lastRateLimitInfo = st.lastRateLimitInfo) := by
  constructor
  · intro r hres hnotok
    rw [makeApiCall_miss_response_case cc now e o tr st r hloop hmiss hres]
    simp only []
    have hok : (!responseOk r) = true := by rw [hnotok]; rfl
    rw [if_pos hok]
    by_cases h429 : r.status = 429
    · rw [if_pos h429]
      exact ⟨⟨_, rfl⟩, rfl⟩
    · rw [if_neg h429]
      exact ⟨⟨_, rfl⟩, rfl⟩
  · intro msg hres
    rw [makeApiCall_miss_neterr_case cc now e o tr st msg hloop hmiss hres]
    refine ⟨rfl, ?_⟩
    rw [trackCall_lastRateLimitInfo, getCachedResult_lastRateLimitInfo]

/-- Witness for C10: a final 500 response (no headers) overwrites the old
snapshot to `none` while the call rejects; a final network error leaves
the old snapshot `some rlPrev` in place. -/
theorem C10_witness :
    ((∃ msg, (makeApiCall sampleCC 0 "/a" emptyOptions
        (fun _ _ => Except.ok resp500W) stWithRL).1 = Except.error msg) ∧
      (makeApiCall sampleCC 0 "/a" emptyOptions
        (fun _ _ => Except.ok resp500W) stWithRL).2.lastRateLimitInfo =
        extractRateLimitInfo resp500W)
    ∧ ((makeApiCall sampleCC 0 "/a" emptyOptions
        (fun _ _ => Except.error "connection reset") stWithRL).1 =
        Except.error "connection reset" ∧
      (makeApiCall sampleCC 0 "/a" emptyOptions
        (fun _ _ => Except.error "connection reset") stWithRL).2.lastRateLimitInfo =
        stWithRL.lastRateLimitInfo) :=
  ⟨(C10_snapshot_updated_before_error sampleCC 0 "/a" emptyOptions
      (fun _ _ => Except.ok resp500W) stWithRL (by decide) rfl).1
      resp500W rfl rfl,
   (C10_snapshot_updated_before_error sampleCC 0 "/a" emptyOptions
      (fun _ _ => Except.error "connection reset") stWithRL (by decide) rfl).2
      "connection reset" rfl⟩

/-- C8: `buildQueryParams` drops exactly the undefined/null entries and
stringifies the rest in the mapping's insertion order, and
`buildEndpointWithQuery` returns the base endpoint unchanged when nothing
remains (the mapping is empty or all-undefined/null) and otherwise appends
`?` and the serialized pairs in that order. -/
theorem C8_buildEndpointWithQuery_spec (base : String)
    (params : List (String × JsParam)) :
    buildQueryParams params =
      (params.filter (fun p => isPresentParam p.2)).map
        (fun p => (p.1, jsString p.2))
    ∧ buildEndpointWithQuery base params =
        (if params.filter (fun p => isPresentParam p.2) = [] then base
         else base ++ "?" ++ urlParamsToString
           ((params.filter (fun p => isPresentParam p.2)).map
             (fun p => (p.1, jsString p.2)))) := by
  refine ⟨buildQueryParams_eq params, ?_⟩
  unfold buildEndpointWithQuery
  rw [buildQueryParams_eq params]
  cases hfil : params.filter (fun p => isPresentParam p.2) with
  | nil =>
    rw [if_pos rfl]
    rfl
  | cons p rest =>
    have hne : (p :: rest) ≠ ([] : List (String × JsParam)) := by
      intro hh; cases hh
    rw [if_neg hne]
    have hqs : urlParamsToString ((p :: rest).map (fun p => (p.1, jsString p.2))) ≠ "" := by
      rw [List.map_cons]
      exact str_ne_empty_of_length_pos _
        (urlParamsToString_length_pos _ _)
    rw [if_neg hqs]

end ScreepsApi
